import Mathlib

/-!
Verification of the godad joke-fetching tool (`main.go`) against its
natural-language specification.

The program is shallowly embedded: the SQLite store becomes an in-memory
`DBState` (a list of joke records plus a key/value metadata table), each SQL
statement becomes a pure function on that state, network I/O becomes oracle
parameters (`Except` values / functions supplying the responses the real run
would receive), and `ORDER BY RANDOM() LIMIT 1` becomes a pick index reduced
modulo the candidate count.  Go functions keep their source names.
-/

namespace Godad

/-- Decides whether `p` is a prefix of `l` (character-wise). -/
def listHasPrefix : List Char → List Char → Bool
  | [], _ => true
  | _ :: _, [] => false
  | p :: ps, c :: cs => p = c && listHasPrefix ps cs

/-- Go `strings.Contains s sub` (used for Content-Type sniffing and for
the "duplicate column" check): `sub` occurs contiguously in `s`. -/
def strContains (s sub : String) : Bool :=
  (List.range (s.toList.length + 1)).any
    (fun i => listHasPrefix sub.toList (s.toList.drop i))

/-- Go `strings.Split s sep` for the single-character separator the code
uses (newline), at the character level: the maximal newline-free segments,
in order.  As in Go, the empty document splits into one empty line. -/
def splitNl : List Char → List (List Char)
  | [] => [[]]
  | c :: rest =>
    match splitNl rest with
    | [] => [[]]
    | h :: t => if c = '\n' then [] :: h :: t else (c :: h) :: t

/-- Go `strings.HasPrefix line "- "`: the first two characters are the
marker. -/
def lineStartsWithMarker (line : List Char) : Bool :=
  match line with
  | c1 :: c2 :: _ => c1 = '-' && c2 = ' '
  | _ => false

/-- One row of the `jokes` table:
`id INTEGER PRIMARY KEY, joke TEXT NOT NULL, language TEXT NOT NULL, shown BOOLEAN NOT NULL`.
(`created_at` plays no role in any claimed behaviour and is omitted.) -/
structure JokeRec where
  id : Nat
  joke : String
  language : String
  shown : Bool
deriving DecidableEq, Repr

/-- The store: the `jokes` table, the `metadata` table (key/value), and the
next id the autoincrementing primary key would assign. -/
structure DBState where
  jokes : List JokeRec
  meta : List (String × String)
  nextId : Nat
deriving DecidableEq, Repr

/-- Models `SELECT COUNT(*) FROM jokes WHERE joke = ? AND language = ?`. -/
def countJokes (db : DBState) (text lang : String) : Nat :=
  (db.jokes.filter (fun r => r.joke = text ∧ r.language = lang)).length

/-- Models `INSERT INTO jokes (joke, language, shown) VALUES (?, ?, ?)`. -/
def insertJoke (db : DBState) (text lang : String) (shown : Bool) : DBState :=
  { db with
    jokes := db.jokes ++ [{ id := db.nextId, joke := text, language := lang, shown := shown }]
    nextId := db.nextId + 1 }

/-- The rows satisfying `language = lang AND shown = 0`. -/
def unshownJokes (db : DBState) (lang : String) : List JokeRec :=
  db.jokes.filter (fun r => r.language = lang ∧ r.shown = false)

/-- The rows satisfying `language = lang`. -/
def langJokes (db : DBState) (lang : String) : List JokeRec :=
  db.jokes.filter (fun r => r.language = lang)

/-- Models `UPDATE jokes SET shown = 0 WHERE language = ?`. -/
def resetShown (db : DBState) (lang : String) : DBState :=
  { db with
    jokes := db.jokes.map (fun r => if r.language = lang then { r with shown := false } else r) }

/-- Models `UPDATE jokes SET shown = 1 WHERE id = ?`. -/
def markShown (db : DBState) (i : Nat) : DBState :=
  { db with
    jokes := db.jokes.map (fun r => if r.id = i then { r with shown := true } else r) }

/-- Models `SELECT value FROM metadata WHERE key = ?` (`none` is `sql.ErrNoRows`). -/
def getMeta (db : DBState) (key : String) : Option String :=
  (db.meta.find? (fun kv => kv.1 = key)).map (fun kv => kv.2)

/-- Models `INSERT OR REPLACE INTO metadata (key, value, ...) VALUES (?, ?, ...)`. -/
def setMeta (db : DBState) (key v : String) : DBState :=
  if db.meta.any (fun kv => kv.1 = key) then
    { db with meta := db.meta.map (fun kv => if kv.1 = key then (key, v) else kv) }
  else
    { db with meta := db.meta ++ [(key, v)] }

/-- Models `ORDER BY RANDOM() LIMIT 1` over a candidate row set: the random draw is
an oracle index `p`, reduced modulo the number of candidates; an empty
candidate set yields `none` (`sql.ErrNoRows`). -/
def pickRow {α : Type} (l : List α) (p : Nat) : Option α :=
  l[p % l.length]?

/-- Go `extractJokesFromMarkdown`: split the document on newlines, keep lines
with the literal two-character prefix marker, strip only the marker (Go loop
with `append`). -/
def extractJokesFromMarkdown (markdown : String) : List String :=
  (splitNl markdown.toList).foldl
    (fun jokes line =>
      if lineStartsWithMarker line then jokes ++ [String.mk (line.drop 2)]
      else jokes)
    []

theorem extract_foldl_append {α β : Type} (g : α → Option β)
    (f : List β → α → List β)
    (hf : ∀ acc l, f acc l = acc ++ (g l).toList) :
    ∀ (ls : List α) (acc : List β),
      ls.foldl f acc = acc ++ ls.filterMap g := by
  intro ls
  induction ls with
  | nil => intro acc; simp
  | cons x xs ih =>
    intro acc
    simp only [List.foldl_cons, List.filterMap_cons]
    rw [hf]
    cases hx : g x with
    | none => simp [ih]
    | some j => simp [ih, List.append_assoc]

/-- Claim C3: `extractJokesFromMarkdown` returns, in document order, exactly
the lines beginning with the two-character marker, each with only the marker
(the first two characters) removed and the rest preserved verbatim: a line
matches exactly when it is the marker followed by an arbitrary remainder,
and the remainder is what is returned.  A document with no matching lines
yields the empty list, not a failure (the function is total); the spec's
three worked examples are included. -/
theorem extractJokesFromMarkdown_spec (markdown : String) :
    extractJokesFromMarkdown markdown
      = (splitNl markdown.toList).filterMap
          (fun line =>
            if lineStartsWithMarker line then some (String.mk (line.drop 2))
            else none)
    ∧ (∀ line : List Char,
        lineStartsWithMarker line = true ↔ ∃ rest, line = '-' :: ' ' :: rest)
    ∧ (∀ rest : List Char, ('-' :: ' ' :: rest).drop 2 = rest)
    ∧ extractJokesFromMarkdown "- A\nnot a joke\n- B" = ["A", "B"]
    ∧ extractJokesFromMarkdown "-  indented" = [" indented"]
    ∧ extractJokesFromMarkdown "no marker" = [] := by
  refine ⟨?_, ?_, fun rest => rfl, by decide, by decide, by decide⟩
  · unfold extractJokesFromMarkdown
    refine extract_foldl_append _ _ ?_ (splitNl markdown.toList) []
    intro acc l
    by_cases h : lineStartsWithMarker l
    · simp [h]
    · simp [h]
  · intro line
    cases line with
    | nil => simp [lineStartsWithMarker]
    | cons c1 cs =>
      cases cs with
      | nil => simp [lineStartsWithMarker]
      | cons c2 rest =>
        simp [lineStartsWithMarker]

/-! ## Errors and the HTTP layer -/

/-- Transport-level failures of one HTTP exchange: `http.NewRequest` failing,
`client.Do` failing (connection failure / timeout), `io.ReadAll` failing. -/
inductive TransportErr where
  | reqConstruct
  | send
  | bodyRead
deriving DecidableEq, Repr

/-- The error values the program produces (each constructor corresponds to one
`fmt.Errorf` site in `main.go`). -/
inductive GoErr where
  /-- the error "no valid API URL provided" -/
  | noAPIURL
  /-- the transport-level wraps in `getJoke` / `syncGermanJokes` -/
  | transport (e : TransportErr)
  /-- the error "error parsing JSON" -/
  | jsonParse
  /-- the errors "no jokes found in markdown content" / "no jokes found in markdown" -/
  | noJokesInMarkdown
  /-- the `getFreshJoke` wrap "error fetching joke from API" -/
  | fetchWrap (e : GoErr)
  /-- the error "could not find a new joke after N attempts" -/
  | exhausted (n : Nat)
  /-- the `getUnshownGermanJoke` error "error getting joke after reset" (no rows) -/
  | noJokeAfterReset
  /-- the `getRandomJokeFromDB` error "error getting random joke from database" (no rows) -/
  | randomPickNoRows
  /-- the `syncGermanJokes` error "error updating last sync time" -/
  | metaUpdateErr
deriving DecidableEq, Repr

/-- What the program sees of one HTTP response once the body is read:
status code, `Content-Type` header, body bytes. -/
structure HttpResp where
  status : Nat
  contentType : String
  body : String
deriving DecidableEq, Repr

/-- The structured API response shape (`ResponseObject` in `main.go`). -/
structure ResponseObject where
  id : String
  joke : String
  status : Int
deriving DecidableEq, Repr

/-- Go `getJoke`: one live fetch.  The network is the oracle `resp` (the response
the exchange would produce, or the transport error it would fail with);
`encoding/json.Unmarshal` into `ResponseObject` is the oracle `parseJSON`,
a function of the body bytes only; the random pick in the markdown branch is
the oracle index `pick`.  Mirrors `main.go`: empty-URL guard, transport
errors, Content-Type sniff, JSON parse or markdown extraction. -/
def getJoke (parseJSON : String → Option ResponseObject) (pick : Nat)
    (apiURL : String) (resp : Except TransportErr HttpResp) : Except GoErr String :=
  if apiURL = "" then .error .noAPIURL
  else
    match resp with
    | .error e => .error (.transport e)
    | .ok r =>
      if strContains r.contentType "application/json" then
        match parseJSON r.body with
        | none => .error .jsonParse
        | some obj => .ok obj.joke
      else
        match pickRow (extractJokesFromMarkdown r.body) pick with
        | none => .error .noJokesInMarkdown
        | some j => .ok j

/-- Go `getRandomJokeFromDB`: uniform-random pick over all rows of the current
language; a read-only query, the store is returned unchanged. -/
def getRandomJokeFromDB (pick : Nat) (lang : String) (db : DBState) :
    Except GoErr String × DBState :=
  match pickRow (langJokes db lang) pick with
  | none => (.error .randomPickNoRows, db)
  | some r => (.ok r.joke, db)

/-- Claim C8: The result of one live fetch depends only on the body bytes and
the Content-Type header, never on the HTTP status code: two responses equal
except in status give equal results; a transport failure surfaces exactly as
the transport-failure error; and when the transport succeeded the result is
never a transport failure (non-2xx statuses are not inspected). -/
theorem getJoke_status_independent (parseJSON : String → Option ResponseObject)
    (pick : Nat) (apiURL : String) (r1 r2 : HttpResp)
    (hu : apiURL ≠ "") (hb : r1.body = r2.body)
    (hc : r1.contentType = r2.contentType) :
    getJoke parseJSON pick apiURL (.ok r1) = getJoke parseJSON pick apiURL (.ok r2)
    ∧ (∀ e : TransportErr,
        getJoke parseJSON pick apiURL (.error e) = .error (.transport e))
    ∧ (∀ e : TransportErr,
        getJoke parseJSON pick apiURL (.ok r1) ≠ .error (.transport e)) := by
  refine ⟨?_, ?_, ?_⟩
  · unfold getJoke
    simp only [hb, hc]
  · intro e
    unfold getJoke
    simp [hu]
  · intro e
    unfold getJoke
    simp only [if_neg hu]
    cases hj : strContains r1.contentType "application/json" with
    | true =>
      simp only [hj, if_pos rfl]
      cases parseJSON r1.body <;> simp
    | false =>
      rw [if_neg (by simp [hj])]
      cases pickRow (extractJokesFromMarkdown r1.body) pick <;> simp

/-- Witness for C8 at a concrete pair of responses differing only in status. -/
theorem getJoke_status_independent_witness :
    getJoke (fun _ => none) 0 "u"
        (.ok { status := 200, contentType := "text/plain", body := "- A" })
      = getJoke (fun _ => none) 0 "u"
        (.ok { status := 500, contentType := "text/plain", body := "- A" }) :=
  (getJoke_status_independent (fun _ => none) 0 "u"
    { status := 200, contentType := "text/plain", body := "- A" }
    { status := 500, contentType := "text/plain", body := "- A" }
    (by decide) rfl rfl).1

/-- Claim C10: The fallback random pick performs no writes: for every store
state the resulting state is exactly the input state (every record, every
shown flag and all metadata unchanged); moreover any joke it returns is the
text of an existing record of the requested language. -/
theorem getRandomJokeFromDB_frame (pick : Nat) (lang : String) (db : DBState) :
    (getRandomJokeFromDB pick lang db).2 = db
    ∧ (∀ j : String, (getRandomJokeFromDB pick lang db).1 = .ok j →
        ∃ r ∈ db.jokes, r.language = lang ∧ r.joke = j) := by
  constructor
  · unfold getRandomJokeFromDB
    cases pickRow (langJokes db lang) pick <;> rfl
  · intro j hj
    unfold getRandomJokeFromDB at hj
    cases hp : pickRow (langJokes db lang) pick with
    | none => rw [hp] at hj; exact absurd hj (by simp)
    | some r =>
      rw [hp] at hj
      simp only [Except.ok.injEq] at hj
      have hr : r ∈ langJokes db lang := by
        unfold pickRow at hp
        exact List.getElem?_mem hp
      unfold langJokes at hr
      rw [List.mem_filter] at hr
      exact ⟨r, hr.1, by simpa using hr.2, hj.symm ▸ rfl⟩

/-! ## The Freshness Engine -/

/-- The retry loop of `getFreshJoke` (Mode A).  `fetch` is the oracle giving
the outcome of the `i`-th `getJoke()` call; `fuel` is the remaining attempts
(started at `maxRetries = 5`); `i` the attempt counter.  A fetch error is
wrapped and propagated at once; a text absent from the store for the active
language is inserted with `shown = 1` and returned; a present text loops.
Exhausting the bound yields the `"could not find a new joke after 5 attempts"`
error, the store untouched. -/
def freshLoop (fetch : Nat → Except GoErr String) (lang : String) :
    Nat → Nat → DBState → Except GoErr String × DBState
  | 0, _, db => (.error (.exhausted 5), db)
  | fuel + 1, i, db =>
    match fetch i with
    | .error e => (.error (.fetchWrap e), db)
    | .ok j =>
      if countJokes db j lang = 0 then (.ok j, insertJoke db j lang true)
      else freshLoop fetch lang fuel (i + 1) db

/-- Go `getUnshownGermanJoke`: pick a random unshown `'de'` row and mark it
shown; on no rows, reset all `'de'` rows to unshown and pick once more; a
second miss is terminal.  `p1, p2` are the two random-pick oracles. -/
def getUnshownGermanJoke (p1 p2 : Nat) (db : DBState) :
    Except GoErr String × DBState :=
  match pickRow (unshownJokes db "de") p1 with
  | some r => (.ok r.joke, markShown db r.id)
  | none =>
    let db1 := resetShown db "de"
    match pickRow (unshownJokes db1 "de") p2 with
    | none => (.error .noJokeAfterReset, db1)
    | some r => (.ok r.joke, markShown db1 r.id)

/-- Go `getFreshJoke`: Mode B (database rotation) for `'de'`, Mode A (live
fetch with dedup, 5 attempts) otherwise. -/
def getFreshJoke (fetch : Nat → Except GoErr String) (p1 p2 : Nat)
    (lang : String) (db : DBState) : Except GoErr String × DBState :=
  if lang = "de" then getUnshownGermanJoke p1 p2 db
  else freshLoop fetch lang 5 0 db

/-- The joke-acquisition step of `main`: any error from `getFreshJoke` is
answered by falling back to `getRandomJokeFromDB`; if that fails too the
run is fatal (the error propagates). -/
def acquireJoke (fetch : Nat → Except GoErr String) (p1 p2 pf : Nat)
    (lang : String) (db : DBState) : Except GoErr String × DBState :=
  match getFreshJoke fetch p1 p2 lang db with
  | (.ok j, db1) => (.ok j, db1)
  | (.error _, db1) => getRandomJokeFromDB pf lang db1

/-- If every remaining fetch yields an already-present text, the loop ends in
the exhaustion error with the store unchanged. -/
theorem freshLoop_exhausted (fetch : Nat → Except GoErr String)
    (texts : Nat → String) (lang : String)
    (hf : ∀ i, fetch i = .ok (texts i)) :
    ∀ (fuel i : Nat) (db : DBState),
      (∀ k, k < fuel → 0 < countJokes db (texts (i + k)) lang) →
      freshLoop fetch lang fuel i db = (.error (.exhausted 5), db) := by
  intro fuel
  induction fuel with
  | zero => intro i db _; rfl
  | succ n ih =>
    intro i db h
    have h0 : 0 < countJokes db (texts i) lang := by
      simpa using h 0 (Nat.succ_pos n)
    unfold freshLoop
    rw [hf i]
    simp only [if_neg (Nat.pos_iff_ne_zero.mp h0)]
    refine ih (i + 1) db ?_
    intro k hk
    have := h (k + 1) (Nat.succ_lt_succ hk)
    simpa [Nat.add_assoc, Nat.add_comm 1 k] using this

/-- If the first `j` fetched texts are present and the `j`-th is absent, the
loop returns the `j`-th text after inserting it with `shown = true`. -/
theorem freshLoop_first_new (fetch : Nat → Except GoErr String)
    (texts : Nat → String) (lang : String)
    (hf : ∀ i, fetch i = .ok (texts i)) :
    ∀ (fuel j i : Nat) (db : DBState), j < fuel →
      (∀ k, k < j → 0 < countJokes db (texts (i + k)) lang) →
      countJokes db (texts (i + j)) lang = 0 →
      freshLoop fetch lang fuel i db
        = (.ok (texts (i + j)), insertJoke db (texts (i + j)) lang true) := by
  intro fuel
  induction fuel with
  | zero => intro j i db hj; exact absurd hj (Nat.not_lt_zero j)
  | succ n ih =>
    intro j i db hj hpre hnew
    unfold freshLoop
    rw [hf i]
    cases j with
    | zero =>
      simp only [Nat.add_zero] at hnew
      simp [hnew]
    | succ m =>
      have h0 : 0 < countJokes db (texts i) lang := by
        simpa using hpre 0 (Nat.succ_pos m)
      simp only [if_neg (Nat.pos_iff_ne_zero.mp h0)]
      have hrec := ih m (i + 1) db (Nat.lt_of_succ_lt_succ hj)
        (fun k hk => by
          have := hpre (k + 1) (Nat.succ_lt_succ hk)
          simpa [Nat.add_assoc, Nat.add_comm 1 k] using this)
        (by simpa [Nat.add_assoc, Nat.add_comm 1 m] using hnew)
      simpa [Nat.add_assoc, Nat.add_comm 1 m] using hrec

/-- Claim C1: Mode A: one acquisition call fetches up to 5 texts and (first
conjunct) if all 5 are already stored for the active language it fails with
the 5-attempt exhaustion error inserting nothing, while (second conjunct) if
some fetch is the first whose text has no exact text-and-language match it
returns that text after inserting it for the active language with
`shown = true`. -/
theorem getFreshJoke_modeA (fetch : Nat → Except GoErr String)
    (texts : Nat → String) (p1 p2 : Nat) (lang : String) (db : DBState)
    (hl : lang ≠ "de") (hf : ∀ i, fetch i = .ok (texts i)) :
    ((∀ i, i < 5 → 0 < countJokes db (texts i) lang) →
      getFreshJoke fetch p1 p2 lang db = (.error (.exhausted 5), db))
    ∧ (∀ j, j < 5 →
        (∀ i, i < j → 0 < countJokes db (texts i) lang) →
        countJokes db (texts j) lang = 0 →
        getFreshJoke fetch p1 p2 lang db
          = (.ok (texts j), insertJoke db (texts j) lang true)) := by
  constructor
  · intro h
    unfold getFreshJoke
    rw [if_neg hl]
    exact freshLoop_exhausted fetch texts lang hf 5 0 db (fun k hk => by
      simpa using h k hk)
  · intro j hj hpre hnew
    unfold getFreshJoke
    rw [if_neg hl]
    have := freshLoop_first_new fetch texts lang hf 5 j 0 db hj
      (fun k hk => by simpa using hpre k hk) (by simpa using hnew)
    simpa using this

/-- A two-row store used to instantiate the theorems. -/
def dbW : DBState :=
  { jokes := [{ id := 1, joke := "A", language := "en", shown := true },
              { id := 2, joke := "B", language := "de", shown := false }]
    meta := []
    nextId := 3 }

/-- Witness for C1: with the store holding `"A"` for `"en"` and the source
returning `"A"` forever, the call fails after 5 attempts; the exhaustion
case of the theorem is applied at this concrete input. -/
theorem getFreshJoke_modeA_witness :
    getFreshJoke (fun _ => .ok "A") 0 0 "en" dbW
      = (.error (.exhausted 5), dbW) :=
  (getFreshJoke_modeA (fun _ => .ok "A") (fun _ => "A") 0 0 "en" dbW
    (by decide) (fun _ => rfl)).1 (fun i _ => by decide)

/-- Witness for C10 at a concrete store. -/
theorem getRandomJokeFromDB_frame_witness :
    (getRandomJokeFromDB 0 "en" dbW).2 = dbW :=
  (getRandomJokeFromDB_frame 0 "en" dbW).1

/-- A pick over a candidate list misses exactly when the list is empty. -/
theorem pickRow_eq_none_iff {α : Type} (l : List α) (p : Nat) :
    pickRow l p = none ↔ l = [] := by
  unfold pickRow
  cases l with
  | nil => simp
  | cons x xs =>
    have hlt : p % (x :: xs).length < (x :: xs).length :=
      Nat.mod_lt _ (by simp)
    rw [List.getElem?_eq_getElem hlt]
    simp

/-- A successful pick is a member of the candidate list. -/
theorem pickRow_mem {α : Type} {l : List α} {p : Nat} {a : α}
    (h : pickRow l p = some a) : a ∈ l :=
  List.getElem?_mem h

theorem filter_unshown_map_reset (l : List JokeRec) :
    (l.map (fun r => if r.language = "de" then { r with shown := false } else r)).filter
        (fun r => decide (r.language = "de" ∧ r.shown = false))
      = (l.filter (fun r => decide (r.language = "de"))).map
          (fun r => { r with shown := false }) := by
  induction l with
  | nil => rfl
  | cons x xs ih =>
    simp only [Bool.decide_and, Bool.decide_eq_false] at ih ⊢
    by_cases hx : x.language = "de"
    · simp [List.filter_cons, hx, ih]
    · simp [List.filter_cons, hx, ih]

/-- Resetting the shown flags of a language turns its unshown pool into the
whole per-language row set (with flags cleared). -/
theorem unshown_resetShown (db : DBState) :
    unshownJokes (resetShown db "de") "de"
      = (langJokes db "de").map (fun r => { r with shown := false }) := by
  unfold unshownJokes resetShown langJokes
  simpa using filter_unshown_map_reset db.jokes

/-- The rows matching a given id are exactly one when the id belongs to a
record of a store with no duplicate ids. -/
theorem filter_id_length_one {db : DBState} {r : JokeRec}
    (hid : (db.jokes.map (fun x => x.id)).Nodup) (hr : r ∈ db.jokes) :
    (db.jokes.filter (fun x => x.id = r.id)).length = 1 := by
  have hlen : ∀ (l : List JokeRec) (a : Nat),
      (l.filter (fun x => x.id = a)).length = (l.map (fun x => x.id)).count a := by
    intro l a
    induction l with
    | nil => rfl
    | cons x xs ih =>
      by_cases hx : x.id = a
      · simp [List.filter_cons, hx, List.count_cons, ih]
      · simp [List.filter_cons, hx, List.count_cons, ih]
  rw [hlen]
  have hmem : r.id ∈ db.jokes.map (fun x => x.id) :=
    List.mem_map_of_mem (fun x => x.id) hr
  have hle : (db.jokes.map (fun x => x.id)).count r.id ≤ 1 :=
    List.nodup_iff_count_le_one.mp hid r.id
  have hge : 0 < (db.jokes.map (fun x => x.id)).count r.id :=
    List.count_pos_iff.mpr hmem
  omega

/-- Claim C2: Mode B: (first conjunct) a successful pick is a member of the
unshown `'de'` pool, its text is returned, and exactly that record — the only
row with its id — is flipped to `shown = true`, metadata untouched; (second
conjunct) when the pool is empty all `'de'` rows are reset to unshown and the
pick is retried once, and a second miss is possible exactly when the store
holds zero `'de'` records; (third conjunct) that second miss is the terminal
failure. -/
theorem getUnshownGermanJoke_spec (p1 p2 : Nat) (db : DBState)
    (hid : (db.jokes.map (fun x => x.id)).Nodup) :
    (∀ r : JokeRec, pickRow (unshownJokes db "de") p1 = some r →
      r ∈ unshownJokes db "de"
      ∧ getUnshownGermanJoke p1 p2 db = (.ok r.joke, markShown db r.id)
      ∧ (markShown db r.id).jokes
          = db.jokes.map (fun x => if x.id = r.id then { x with shown := true } else x)
      ∧ (db.jokes.filter (fun x => x.id = r.id)).length = 1
      ∧ (markShown db r.id).meta = db.meta)
    ∧ (pickRow (unshownJokes db "de") p1 = none →
        (∀ r : JokeRec,
          pickRow (unshownJokes (resetShown db "de") "de") p2 = some r →
          getUnshownGermanJoke p1 p2 db
            = (.ok r.joke, markShown (resetShown db "de") r.id))
        ∧ (pickRow (unshownJokes (resetShown db "de") "de") p2 = none ↔
            langJokes db "de" = []))
    ∧ (pickRow (unshownJokes db "de") p1 = none →
        pickRow (unshownJokes (resetShown db "de") "de") p2 = none →
        getUnshownGermanJoke p1 p2 db
          = (.error .noJokeAfterReset, resetShown db "de")) := by
  refine ⟨?_, ?_, ?_⟩
  · intro r hp
    have hmemU : r ∈ unshownJokes db "de" := pickRow_mem hp
    have hmem : r ∈ db.jokes := by
      have := hmemU
      unfold unshownJokes at this
      exact (List.mem_filter.mp this).1
    refine ⟨hmemU, ?_, rfl, filter_id_length_one hid hmem, rfl⟩
    unfold getUnshownGermanJoke
    rw [hp]
  · intro hp
    constructor
    · intro r hp2
      unfold getUnshownGermanJoke
      rw [hp]
      simp only [hp2]
    · rw [pickRow_eq_none_iff, unshown_resetShown]
      simp
  · intro hp hp2
    unfold getUnshownGermanJoke
    rw [hp]
    simp only [hp2]

/-- Witness for C2: in the two-row store the unshown `'de'` pool is the row
`(2, "B")`; the theorem applied there returns `"B"` and marks row 2 shown. -/
theorem getUnshownGermanJoke_spec_witness :
    getUnshownGermanJoke 0 0 dbW = (.ok "B", markShown dbW 2) :=
  (((getUnshownGermanJoke_spec 0 0 dbW (by decide)).1
    { id := 2, joke := "B", language := "de", shown := false } (by decide)).2).1

/-- If the fetch at some index fails, the (remaining-fuel) loop propagates the
wrapped error at once, the store unchanged and no further attempt made. -/
theorem freshLoop_error (fetch : Nat → Except GoErr String) (lang : String)
    (fuel i : Nat) (db : DBState) (e : GoErr) (h : fetch i = .error e) :
    freshLoop fetch lang (fuel + 1) i db = (.error (.fetchWrap e), db) := by
  unfold freshLoop
  rw [h]

/-- Counterexample to C5 as stated: a transport failure of the very first
fetch is NOT merely propagated — the program recovers it through the same
random-pick fallback, printing a stored joke. -/
theorem acquireJoke_transport_recovered_ce :
    getFreshJoke (fun _ => .error (.transport .send)) 0 0 "en" dbW
      = (.error (.fetchWrap (.transport .send)), dbW)
    ∧ acquireJoke (fun _ => .error (.transport .send)) 0 0 0 "en" dbW
      = (.ok "A", dbW) := by
  exact ⟨rfl, rfl⟩

/-- Claim C5, amended: Every failure of the acquisition call — transport and
parse failures included, not only the Mode A exhaustion — is recovered by
falling back to a uniform-random pick from the store, the run becoming fatal
exactly when the store holds no record for the language; within the
acquisition call itself a fetch failure is propagated immediately, with no
retry. -/
theorem acquireJoke_fallback (fetch : Nat → Except GoErr String)
    (p1 p2 pf : Nat) (lang : String) (db : DBState) :
    (∀ (e : GoErr) (db1 : DBState),
      getFreshJoke fetch p1 p2 lang db = (.error e, db1) →
      acquireJoke fetch p1 p2 pf lang db = getRandomJokeFromDB pf lang db1)
    ∧ (∀ e : GoErr, fetch 0 = .error e → lang ≠ "de" →
        getFreshJoke fetch p1 p2 lang db = (.error (.fetchWrap e), db))
    ∧ ((getRandomJokeFromDB pf lang db).1 = .error .randomPickNoRows ↔
        langJokes db lang = []) := by
  refine ⟨?_, ?_, ?_⟩
  · intro e db1 h
    unfold acquireJoke
    rw [h]
  · intro e he hl
    unfold getFreshJoke
    rw [if_neg hl]
    exact freshLoop_error fetch lang 4 0 db e he
  · unfold getRandomJokeFromDB
    cases hp : pickRow (langJokes db lang) pf with
    | none =>
      simp only
      rw [(pickRow_eq_none_iff (langJokes db lang) pf).mp hp]
      simp
    | some r =>
      simp only
      constructor
      · intro h
        exact absurd h (by simp)
      · intro h0
        rw [h0] at hp
        simp [pickRow] at hp

/-- Witness for the amended C5: a body-read failure is recovered through the
fallback at the two-row store. -/
theorem acquireJoke_fallback_witness :
    acquireJoke (fun _ => .error (.transport .bodyRead)) 0 0 0 "en" dbW
      = getRandomJokeFromDB 0 "en" dbW :=
  (acquireJoke_fallback (fun _ => .error (.transport .bodyRead)) 0 0 0 "en" dbW).1
    (.fetchWrap (.transport .bodyRead)) dbW rfl

/-! ## The bulk sync path -/

/-- The per-entry loop of `syncGermanJokes`.  `checkFault i` (resp.
`insertFault i`) injects a store failure into the existence check (resp. the
insert) of the `i`-th extracted entry; in `main.go` either failure is logged
with `continue`, so the entry is skipped and the loop goes on. -/
def insertExtracted (checkFault insertFault : Nat → Bool) :
    List String → Nat → DBState → DBState
  | [], _, db => db
  | j :: rest, i, db =>
    insertExtracted checkFault insertFault rest (i + 1)
      (if checkFault i then db
       else if countJokes db j "de" = 0 then
         if insertFault i then db else insertJoke db j "de" false
       else db)

/-- Go `syncGermanJokes`: download the document (oracle `fetchRes`), extract,
fail if nothing was extracted, insert the new entries (skipping individual
failures), then write the sync timestamp (`metaFault` injects a failure of
that final write, which the code propagates as an error). -/
def syncGermanJokes (fetchRes : Except TransportErr String)
    (checkFault insertFault : Nat → Bool) (metaFault : Bool) (nowStr : String)
    (db : DBState) : Except GoErr Unit × DBState :=
  match fetchRes with
  | .error e => (.error (.transport e), db)
  | .ok body =>
    match extractJokesFromMarkdown body with
    | [] => (.error .noJokesInMarkdown, db)
    | j :: rest =>
      let db1 := insertExtracted checkFault insertFault (j :: rest) 0 db
      if metaFault then (.error .metaUpdateErr, db1)
      else (.ok (), setMeta db1 "german_jokes_last_sync" nowStr)

/-- Go `syncInterval = 7 * 24 * time.Hour`, in seconds. -/
def syncInterval : Int := 7 * 24 * 60 * 60

/-- The staleness decision of `syncGermanJokesIfNeeded`: no metadata row,
an unparsable timestamp (`parse` is the `time.Parse(time.RFC3339, ...)`
oracle, a function of the stored string only), or a parsed timestamp more
than 7 days before `now`. -/
def syncNeeded (lastSync : Option String) (parse : String → Option Int)
    (now : Int) : Bool :=
  match lastSync with
  | none => true
  | some s =>
    match parse s with
    | none => true
    | some t => decide (now - t > syncInterval)

/-- Go `syncGermanJokesIfNeeded`: read the sync-metadata row and either run the
full sync or do nothing. -/
def syncGermanJokesIfNeeded (parse : String → Option Int) (now : Int)
    (fetchRes : Except TransportErr String)
    (checkFault insertFault : Nat → Bool) (metaFault : Bool) (nowStr : String)
    (db : DBState) : Except GoErr Unit × DBState :=
  if syncNeeded (getMeta db "german_jokes_last_sync") parse now then
    syncGermanJokes fetchRes checkFault insertFault metaFault nowStr db
  else (.ok (), db)

/-- The empty store (fresh database). -/
def dbEmpty : DBState := { jokes := [], meta := [], nextId := 1 }

/-- A store whose sync-metadata row is present. -/
def dbSynced : DBState :=
  { jokes := [], meta := [("german_jokes_last_sync", "recent")], nextId := 1 }

/-- Claim C4: The sync check triggers re-ingestion exactly when the
`german_jokes_last_sync` row is absent, unparsable, or parses to a timestamp
more than 7 days old; when suppressed, nothing runs and the store is
returned unchanged; when triggered, the full sync runs. -/
theorem syncGermanJokesIfNeeded_spec (parse : String → Option Int) (now : Int)
    (fetchRes : Except TransportErr String) (checkFault insertFault : Nat → Bool)
    (metaFault : Bool) (nowStr : String) (db : DBState) :
    (syncNeeded (getMeta db "german_jokes_last_sync") parse now = true ↔
      getMeta db "german_jokes_last_sync" = none
      ∨ (∃ s, getMeta db "german_jokes_last_sync" = some s ∧ parse s = none)
      ∨ (∃ s t, getMeta db "german_jokes_last_sync" = some s ∧ parse s = some t
          ∧ now - t > syncInterval))
    ∧ (syncNeeded (getMeta db "german_jokes_last_sync") parse now = true →
        syncGermanJokesIfNeeded parse now fetchRes checkFault insertFault
            metaFault nowStr db
          = syncGermanJokes fetchRes checkFault insertFault metaFault nowStr db)
    ∧ (syncNeeded (getMeta db "german_jokes_last_sync") parse now = false →
        syncGermanJokesIfNeeded parse now fetchRes checkFault insertFault
            metaFault nowStr db
          = (.ok (), db)) := by
  refine ⟨?_, ?_, ?_⟩
  · unfold syncNeeded
    cases hm : getMeta db "german_jokes_last_sync" with
    | none => simp
    | some s =>
      cases hp : parse s with
      | none => simp [hp]
      | some t => simp [hp]
  · intro h
    unfold syncGermanJokesIfNeeded
    rw [if_pos h]
  · intro h
    unfold syncGermanJokesIfNeeded
    rw [h]
    simp

/-- Witness for C4: a parsable timestamp 0 checked at `now = 0` is within the
threshold, so re-ingestion is suppressed and the store is unchanged. -/
theorem syncGermanJokesIfNeeded_spec_witness :
    syncGermanJokesIfNeeded (fun _ => some 0) 0 (.ok "- A")
        (fun _ => false) (fun _ => false) false "t" dbSynced
      = (.ok (), dbSynced) :=
  (syncGermanJokesIfNeeded_spec (fun _ => some 0) 0 (.ok "- A")
    (fun _ => false) (fun _ => false) false "t" dbSynced).2.2 (by decide)

/-- Counterexample to C6 as stated: with the document fetched successfully
and one entry extracted (and inserted), a failure of the final
sync-timestamp write still fails the whole sync — so the sync can fail even
though the fetch succeeded and extraction was non-empty. -/
theorem syncGermanJokes_metaFault_ce :
    syncGermanJokes (.ok "- A") (fun _ => false) (fun _ => false) true "t" dbEmpty
      = (.error .metaUpdateErr, insertJoke dbEmpty "A" "de" false)
    ∧ extractJokesFromMarkdown "- A" = ["A"] := by
  exact ⟨rfl, rfl⟩

/-- Claim C6, amended: During a bulk ingestion pass, failures while checking
or inserting individual entries are skipped without failing the pass (the
success conjuncts hold for every fault oracle); the sync as a whole fails
exactly when the initial fetch fails, extraction yields zero entries, or the
final sync-timestamp write fails. -/
theorem syncGermanJokes_spec (fetchRes : Except TransportErr String)
    (checkFault insertFault : Nat → Bool) (metaFault : Bool) (nowStr : String)
    (db : DBState) :
    (∀ e : TransportErr, fetchRes = .error e →
      syncGermanJokes fetchRes checkFault insertFault metaFault nowStr db
        = (.error (.transport e), db))
    ∧ (∀ body : String, fetchRes = .ok body → extractJokesFromMarkdown body = [] →
        syncGermanJokes fetchRes checkFault insertFault metaFault nowStr db
          = (.error .noJokesInMarkdown, db))
    ∧ (∀ body : String, fetchRes = .ok body → extractJokesFromMarkdown body ≠ [] →
        metaFault = false →
        (syncGermanJokes fetchRes checkFault insertFault metaFault nowStr db).1
          = .ok ())
    ∧ (∀ body : String, fetchRes = .ok body → extractJokesFromMarkdown body ≠ [] →
        metaFault = true →
        (syncGermanJokes fetchRes checkFault insertFault metaFault nowStr db).1
          = .error .metaUpdateErr) := by
  refine ⟨?_, ?_, ?_, ?_⟩
  · intro e he
    subst he
    rfl
  · intro body hb hext
    subst hb
    show (match extractJokesFromMarkdown body with
      | [] => ((.error .noJokesInMarkdown : Except GoErr Unit), db)
      | j :: rest =>
        let db1 := insertExtracted checkFault insertFault (j :: rest) 0 db
        if metaFault then (.error .metaUpdateErr, db1)
        else (.ok (), setMeta db1 "german_jokes_last_sync" nowStr)) = _
    rw [hext]
  · intro body hb hext hm
    subst hb
    subst hm
    obtain ⟨j, rest, hx⟩ := List.exists_cons_of_ne_nil hext
    show (match extractJokesFromMarkdown body with
      | [] => ((.error .noJokesInMarkdown : Except GoErr Unit), db)
      | j :: rest =>
        let db1 := insertExtracted checkFault insertFault (j :: rest) 0 db
        if (false : Bool) then (.error .metaUpdateErr, db1)
        else (.ok (), setMeta db1 "german_jokes_last_sync" nowStr)).1 = _
    rw [hx]
    rfl
  · intro body hb hext hm
    subst hb
    subst hm
    obtain ⟨j, rest, hx⟩ := List.exists_cons_of_ne_nil hext
    show (match extractJokesFromMarkdown body with
      | [] => ((.error .noJokesInMarkdown : Except GoErr Unit), db)
      | j :: rest =>
        let db1 := insertExtracted checkFault insertFault (j :: rest) 0 db
        if (true : Bool) then (.error .metaUpdateErr, db1)
        else (.ok (), setMeta db1 "german_jokes_last_sync" nowStr)).1 = _
    rw [hx]
    rfl

/-- Witness for the amended C6: every entry-level check fails, yet the pass
succeeds. -/
theorem syncGermanJokes_spec_witness :
    (syncGermanJokes (.ok "- A") (fun _ => true) (fun _ => true) false "t"
      dbEmpty).1 = .ok () :=
  (syncGermanJokes_spec (.ok "- A") (fun _ => true) (fun _ => true) false "t"
    dbEmpty).2.2.1 "- A" rfl (by decide) rfl

/-! ## Startup schema setup and migration (`main`, table creation + ALTERs) -/

/-- A store schema: each table is `none` when absent, else its column list. -/
structure SchemaState where
  jokesTable : Option (List String)
  metaTable : Option (List String)
deriving DecidableEq, Repr

/-- The columns of the `jokes` table as created. -/
def fullJokesCols : List String := ["id", "joke", "language", "shown", "created_at"]

/-- The columns of the `metadata` table as created. -/
def fullMetaCols : List String := ["key", "value", "updated_at"]

/-- Models `CREATE TABLE IF NOT EXISTS jokes (...)`. -/
def createJokesTable (s : SchemaState) : SchemaState :=
  if s.jokesTable.isSome then s else { s with jokesTable := some fullJokesCols }

/-- Models `CREATE TABLE IF NOT EXISTS metadata (...)`. -/
def createMetaTable (s : SchemaState) : SchemaState :=
  if s.metaTable.isSome then s else { s with metaTable := some fullMetaCols }

/-- Models `ALTER TABLE jokes ADD COLUMN c ...`: SQLite fails with the duplicate
column message when the column already exists. -/
def alterAddColumn (cols : List String) (c : String) : Except String (List String) :=
  if c ∈ cols then .error ("duplicate column name: " ++ c)
  else .ok (cols ++ [c])

/-- The three ways a startup step can end in `main`. -/
inductive StartupOutcome where
  /-- proceed silently -/
  | ok
  /-- warn via `log.Warn` and proceed -/
  | warned
  /-- abort the process via `log.Fatal` -/
  | fatal
deriving DecidableEq, Repr

/-- How `main` handles a table-creation error (`log.Fatal`). -/
def handleCreateError (res : Option String) : StartupOutcome :=
  match res with
  | none => .ok
  | some _ => .fatal

/-- How `main` handles the result of one migration `ALTER`: the error whose
message contains `"duplicate column"` is swallowed silently; any other error
is logged as a warning; either way startup continues. -/
def handleMigrationError (res : Option String) : StartupOutcome :=
  match res with
  | none => .ok
  | some e => if strContains e "duplicate column" then .ok else .warned

/-- One column migration: run the `ALTER`, route its outcome through the
handler, keep the previous schema when it errored. -/
def migrateAddColumn (s : SchemaState) (c : String) : SchemaState × StartupOutcome :=
  match s.jokesTable with
  | none => (s, handleMigrationError (some "no such table: jokes"))
  | some cols =>
    match alterAddColumn cols c with
    | .ok cols2 => ({ s with jokesTable := some cols2 }, handleMigrationError none)
    | .error e => (s, handleMigrationError (some e))

/-- The startup schema sequence of `main`: create both tables if absent,
then migrate the `language` and `shown` columns onto the jokes table,
collecting the two migration outcomes. -/
def setupSchema (s : SchemaState) : SchemaState × List StartupOutcome :=
  let s2 := createMetaTable (createJokesTable s)
  let m1 := migrateAddColumn s2 "language"
  let m2 := migrateAddColumn m1.1 "shown"
  (m2.1, [m1.2, m2.2])

theorem alterAddColumn_mem {cols : List String} {c : String} (hc : c ∈ cols) :
    alterAddColumn cols c = .error ("duplicate column name: " ++ c) := by
  unfold alterAddColumn
  rw [if_pos hc]

theorem alterAddColumn_not_mem {cols : List String} {c : String} (hc : c ∉ cols) :
    alterAddColumn cols c = .ok (cols ++ [c]) := by
  unfold alterAddColumn
  rw [if_neg hc]

theorem migrateAddColumn_mem (s : SchemaState) (cols : List String) (c : String)
    (hj : s.jokesTable = some cols) (hc : c ∈ cols)
    (hdup : strContains ("duplicate column name: " ++ c) "duplicate column" = true) :
    migrateAddColumn s c = (s, .ok) := by
  unfold migrateAddColumn
  rw [hj]
  simp only [alterAddColumn_mem hc, handleMigrationError, hdup, if_pos]

theorem migrateAddColumn_not_mem (s : SchemaState) (cols : List String) (c : String)
    (hj : s.jokesTable = some cols) (hc : c ∉ cols) :
    migrateAddColumn s c
      = ({ s with jokesTable := some (cols ++ [c]) }, .ok) := by
  unfold migrateAddColumn
  rw [hj]
  simp only [alterAddColumn_not_mem hc, handleMigrationError]

theorem migrateAddColumn_mem_fst (s : SchemaState) (cols : List String) (c : String)
    (hj : s.jokesTable = some cols) (hc : c ∈ cols)
    (hdup : strContains ("duplicate column name: " ++ c) "duplicate column" = true) :
    (migrateAddColumn s c).1 = s := by
  rw [migrateAddColumn_mem s cols c hj hc hdup]

theorem migrateAddColumn_mem_snd (s : SchemaState) (cols : List String) (c : String)
    (hj : s.jokesTable = some cols) (hc : c ∈ cols)
    (hdup : strContains ("duplicate column name: " ++ c) "duplicate column" = true) :
    (migrateAddColumn s c).2 = .ok := by
  rw [migrateAddColumn_mem s cols c hj hc hdup]

theorem migrateAddColumn_not_mem_fst (s : SchemaState) (cols : List String) (c : String)
    (hj : s.jokesTable = some cols) (hc : c ∉ cols) :
    (migrateAddColumn s c).1 = { s with jokesTable := some (cols ++ [c]) } := by
  rw [migrateAddColumn_not_mem s cols c hj hc]

theorem migrateAddColumn_not_mem_snd (s : SchemaState) (cols : List String) (c : String)
    (hj : s.jokesTable = some cols) (hc : c ∉ cols) :
    (migrateAddColumn s c).2 = .ok := by
  rw [migrateAddColumn_not_mem s cols c hj hc]

theorem migrateAddColumn_eq_some (s : SchemaState) (cols : List String)
    (c : String) (hj : s.jokesTable = some cols) :
    migrateAddColumn s c
      = (match alterAddColumn cols c with
        | .ok cols2 => ({ s with jokesTable := some cols2 }, handleMigrationError none)
        | .error e => (s, handleMigrationError (some e))) := by
  unfold migrateAddColumn
  rw [hj]

theorem migrateAddColumn_meta (s : SchemaState) (c : String) :
    ((migrateAddColumn s c).1).metaTable = s.metaTable := by
  cases hj : s.jokesTable with
  | none =>
    unfold migrateAddColumn
    rw [hj]
  | some cols =>
    rw [migrateAddColumn_eq_some s cols c hj]
    cases halter : alterAddColumn cols c with
    | ok cols2 => rfl
    | error e => rfl

theorem createMetaTable_jokes (t : SchemaState) :
    (createMetaTable t).jokesTable = t.jokesTable := by
  unfold createMetaTable
  by_cases h : t.metaTable.isSome
  · rw [if_pos h]
  · rw [if_neg h]

theorem createMetaTable_isSome (t : SchemaState) :
    ((createMetaTable t).metaTable).isSome = true := by
  unfold createMetaTable
  by_cases h : t.metaTable.isSome
  · rw [if_pos h]; exact h
  · rw [if_neg h]; rfl

theorem createJokesTable_post (t : SchemaState)
    (h1 : ∀ cols, t.jokesTable = some cols → cols.Nodup) :
    ∃ cols, (createJokesTable t).jokesTable = some cols ∧ cols.Nodup := by
  unfold createJokesTable
  cases hj : t.jokesTable with
  | none => exact ⟨fullJokesCols, rfl, by decide⟩
  | some cols => exact ⟨cols, hj, h1 cols hj⟩

theorem nodup_append_singleton {l : List String} {c : String}
    (h : l.Nodup) (hc : c ∉ l) : (l ++ [c]).Nodup := by
  rw [List.nodup_append]
  refine ⟨h, List.nodup_singleton c, ?_⟩
  intro a ha hb
  simp at hb
  rw [hb] at ha
  exact hc ha

/-- The two migration steps leave a schema whose jokes table holds both
migrated columns, has no duplicate column, and whose metadata table is the
one given. -/
theorem migratePair_post (t : SchemaState) (cols : List String)
    (hj : t.jokesTable = some cols) (hnd : cols.Nodup) :
    ∃ cols2,
      ((migrateAddColumn (migrateAddColumn t "language").1 "shown").1).jokesTable
        = some cols2
      ∧ "language" ∈ cols2 ∧ "shown" ∈ cols2 ∧ cols2.Nodup := by
  by_cases hl : "language" ∈ cols
  · rw [migrateAddColumn_mem_fst t cols "language" hj hl (by decide)]
    by_cases hs : "shown" ∈ cols
    · rw [migrateAddColumn_mem_fst t cols "shown" hj hs (by decide)]
      exact ⟨cols, hj, hl, hs, hnd⟩
    · rw [migrateAddColumn_not_mem_fst t cols "shown" hj hs]
      exact ⟨cols ++ ["shown"], rfl, List.mem_append_left _ hl,
        List.mem_append_right _ (by decide), nodup_append_singleton hnd hs⟩
  · rw [migrateAddColumn_not_mem_fst t cols "language" hj hl]
    have hj3 : ({ t with jokesTable := some (cols ++ ["language"]) }
        : SchemaState).jokesTable = some (cols ++ ["language"]) := rfl
    by_cases hs : "shown" ∈ cols
    · have hs2 : "shown" ∈ cols ++ ["language"] := List.mem_append_left _ hs
      rw [migrateAddColumn_mem_fst _ (cols ++ ["language"]) "shown" hj3 hs2 (by decide)]
      exact ⟨cols ++ ["language"], hj3, List.mem_append_right _ (by decide), hs2,
        nodup_append_singleton hnd hl⟩
    · have hs2 : "shown" ∉ cols ++ ["language"] := by
        intro h
        rcases List.mem_append.mp h with h | h
        · exact hs h
        · simp at h
      rw [migrateAddColumn_not_mem_fst _ (cols ++ ["language"]) "shown" hj3 hs2]
      refine ⟨cols ++ ["language"] ++ ["shown"], rfl, ?_, ?_, ?_⟩
      · exact List.mem_append_left _ (List.mem_append_right _ (by decide))
      · exact List.mem_append_right _ (by decide)
      · exact nodup_append_singleton (nodup_append_singleton hnd hl) hs2

/-- After one run of the startup sequence, the jokes table exists with both
migrated columns present and no duplicates, and the metadata table exists. -/
theorem setupSchema_post (s : SchemaState)
    (h1 : ∀ cols, s.jokesTable = some cols → cols.Nodup) :
    ∃ cols, (((setupSchema s).1).jokesTable = some cols)
      ∧ (((setupSchema s).1).metaTable).isSome = true
      ∧ "language" ∈ cols ∧ "shown" ∈ cols ∧ cols.Nodup := by
  obtain ⟨cols, hjc, hnd⟩ := createJokesTable_post s h1
  have hj2 : (createMetaTable (createJokesTable s)).jokesTable = some cols := by
    rw [createMetaTable_jokes]
    exact hjc
  obtain ⟨cols2, hfin, hl2, hs2, hnd2⟩ :=
    migratePair_post (createMetaTable (createJokesTable s)) cols hj2 hnd
  refine ⟨cols2, ?_, ?_, hl2, hs2, hnd2⟩
  · simp only [setupSchema]
    exact hfin
  · simp only [setupSchema]
    rw [migrateAddColumn_meta, migrateAddColumn_meta]
    exact createMetaTable_isSome _

/-- A schema already holding both migrated columns and both tables is a
fixed point of the startup sequence, with only silent-success outcomes. -/
theorem setupSchema_stable (s : SchemaState) (cols : List String)
    (hj : s.jokesTable = some cols) (hm : s.metaTable.isSome = true)
    (hl : "language" ∈ cols) (hs : "shown" ∈ cols) :
    setupSchema s = (s, [.ok, .ok]) := by
  have hc1 : createJokesTable s = s := by
    unfold createJokesTable
    rw [hj]
    rfl
  have hc2 : createMetaTable s = s := by
    unfold createMetaTable
    rw [if_pos hm]
  simp only [setupSchema]
  rw [hc1, hc2]
  rw [migrateAddColumn_mem_fst s cols "language" hj hl (by decide)]
  rw [migrateAddColumn_mem s cols "shown" hj hs (by decide)]
  rw [migrateAddColumn_mem_snd s cols "language" hj hl (by decide)]

/-- Counterexample to C7 as stated: a migration error other than "column
already exists" — here SQLite's missing-table message — is logged as a
warning and startup continues; it is not fatal. -/
theorem migration_other_error_not_fatal_ce :
    handleMigrationError (some "no such table: jokes") = .warned
    ∧ StartupOutcome.warned ≠ StartupOutcome.fatal
    ∧ (migrateAddColumn { jokesTable := none, metaTable := none } "language").2
        = .warned := by
  exact ⟨by decide, by decide, by decide⟩

/-- Claim C7, amended: Store initialization is idempotent: running schema
setup and migration against an already-current store (the result of a
previous run) changes nothing, produces no duplicate columns or tables, and
every step ends in silent success; a "column already exists" condition
during migration is treated as success, while any other migration error is
logged as a warning and startup continues — migration errors are never
fatal (only table-creation errors are). -/
theorem setupSchema_idempotent (s : SchemaState)
    (h1 : ∀ cols, s.jokesTable = some cols → cols.Nodup) :
    setupSchema (setupSchema s).1 = ((setupSchema s).1, [.ok, .ok])
    ∧ (∀ cols, (((setupSchema s).1).jokesTable = some cols) → cols.Nodup)
    ∧ (∀ e, strContains e "duplicate column" = true →
        handleMigrationError (some e) = .ok)
    ∧ (∀ e, strContains e "duplicate column" = false →
        handleMigrationError (some e) = .warned)
    ∧ (∀ res, handleMigrationError res ≠ .fatal)
    ∧ (∀ e, handleCreateError (some e) = .fatal) := by
  obtain ⟨cols, hj, hm, hlang, hshown, hnd⟩ := setupSchema_post s h1
  refine ⟨?_, ?_, ?_, ?_, ?_, fun e => rfl⟩
  · exact setupSchema_stable _ cols hj hm hlang hshown
  · intro cols2 hj2
    rw [hj] at hj2
    injection hj2 with h
    rw [← h]
    exact hnd
  · intro e he
    show (if strContains e "duplicate column" = true then StartupOutcome.ok
      else StartupOutcome.warned) = StartupOutcome.ok
    rw [he]
    rfl
  · intro e he
    show (if strContains e "duplicate column" = true then StartupOutcome.ok
      else StartupOutcome.warned) = StartupOutcome.warned
    rw [he]
    rfl
  · intro res
    cases res with
    | none => simp [handleMigrationError]
    | some e =>
      unfold handleMigrationError
      by_cases h : strContains e "duplicate column" = true
      · simp [h]
      · simp [h]

/-- An old-shape store: jokes table without the migrated columns, no
metadata table. -/
def schemaOld : SchemaState :=
  { jokesTable := some ["id", "joke", "created_at"], metaTable := none }

/-- Witness for the amended C7: an old-shape store is upgraded once; the
second run is a no-op with silent-success outcomes. -/
theorem setupSchema_idempotent_witness :
    setupSchema (setupSchema schemaOld).1
      = ((setupSchema schemaOld).1, [.ok, .ok]) :=
  (setupSchema_idempotent schemaOld (by
    intro cols h
    injection h with h
    rw [← h]
    decide)).1

/-! ## Provenance of created records -/

theorem setMeta_jokes (db : DBState) (k v : String) :
    (setMeta db k v).jokes = db.jokes := by
  unfold setMeta
  by_cases h : db.meta.any (fun kv => kv.1 = k)
  · rw [if_pos h]
  · rw [if_neg h]

/-- Every record present after the Mode A loop was either already stored or
carries one of the fetched texts verbatim. -/
theorem freshLoop_new_records (fetch : Nat → Except GoErr String)
    (texts : Nat → String) (lang : String)
    (hf : ∀ i, fetch i = .ok (texts i)) :
    ∀ (fuel i : Nat) (db : DBState) (r : JokeRec),
      r ∈ (freshLoop fetch lang fuel i db).2.jokes →
      r ∈ db.jokes ∨ ∃ k, r.joke = texts (i + k) := by
  intro fuel
  induction fuel with
  | zero => intro i db r hr; exact .inl hr
  | succ n ih =>
    intro i db r hr
    unfold freshLoop at hr
    rw [hf i] at hr
    replace hr : r ∈ (if countJokes db (texts i) lang = 0
        then ((Except.ok (texts i) : Except GoErr String),
          insertJoke db (texts i) lang true)
        else freshLoop fetch lang n (i + 1) db).2.jokes := hr
    by_cases hc : countJokes db (texts i) lang = 0
    · rw [if_pos hc] at hr
      replace hr : r ∈ (insertJoke db (texts i) lang true).jokes := hr
      replace hr : r ∈ db.jokes ++
        [{ id := db.nextId, joke := texts i, language := lang, shown := true }] := hr
      rcases List.mem_append.mp hr with h | h
      · exact .inl h
      · refine .inr ⟨0, ?_⟩
        rw [List.mem_singleton.mp h]
        rw [Nat.add_zero]
    · rw [if_neg hc] at hr
      replace hr : r ∈ (freshLoop fetch lang n (i + 1) db).2.jokes := hr
      rcases ih (i + 1) db r hr with h | ⟨k, hk⟩
      · exact .inl h
      · refine .inr ⟨k + 1, ?_⟩
        rw [hk]
        congr 1
        omega

/-- Every record present after the bulk-insert loop was either already
stored or carries one of the extracted entries verbatim. -/
theorem insertExtracted_new (checkFault insertFault : Nat → Bool) :
    ∀ (js : List String) (i : Nat) (db : DBState) (r : JokeRec),
      r ∈ (insertExtracted checkFault insertFault js i db).jokes →
      r ∈ db.jokes ∨ r.joke ∈ js := by
  intro js
  induction js with
  | nil => intro i db r hr; exact .inl hr
  | cons j rest ih =>
    intro i db r hr
    unfold insertExtracted at hr
    rcases ih (i + 1) _ r hr with h | h
    · by_cases h1 : checkFault i
      · rw [if_pos h1] at h
        exact .inl h
      · rw [if_neg h1] at h
        by_cases h2 : countJokes db j "de" = 0
        · rw [if_pos h2] at h
          by_cases h3 : insertFault i
          · rw [if_pos h3] at h
            exact .inl h
          · rw [if_neg h3] at h
            replace h : r ∈ db.jokes ++
              [{ id := db.nextId, joke := j, language := "de", shown := false }] := h
            rcases List.mem_append.mp h with h4 | h4
            · exact .inl h4
            · right
              rw [List.mem_singleton.mp h4]
              exact List.mem_cons_self j rest
        · rw [if_neg h2] at h
          exact .inl h
    · exact .inr (List.mem_cons_of_mem j h)

/-- On a successful fetch, the jokes table after a sync is exactly the
result of the bulk-insert loop (the final metadata write touches only
metadata). -/
theorem syncGermanJokes_jokes (body : String) (checkFault insertFault : Nat → Bool)
    (metaFault : Bool) (nowStr : String) (db : DBState) :
    ((syncGermanJokes (.ok body) checkFault insertFault metaFault nowStr db).2).jokes
      = (insertExtracted checkFault insertFault (extractJokesFromMarkdown body) 0 db).jokes := by
  show ((match extractJokesFromMarkdown body with
    | [] => ((.error .noJokesInMarkdown : Except GoErr Unit), db)
    | j :: rest =>
      let db1 := insertExtracted checkFault insertFault (j :: rest) 0 db
      if metaFault then (.error .metaUpdateErr, db1)
      else (.ok (), setMeta db1 "german_jokes_last_sync" nowStr)).2).jokes = _
  cases hx : extractJokesFromMarkdown body with
  | nil => rfl
  | cons j rest =>
    cases hm : metaFault with
    | true => rfl
    | false => simp [setMeta_jokes]

/-- Claim C9, amended: Every joke record the program creates — by the Mode A
insert after a live fetch or by a bulk-sync insert of an extracted entry —
carries, verbatim, a text supplied by the source (a fetched text or an
extracted entry); created records therefore have non-empty text whenever
every source text is non-empty, but the program does not itself enforce
non-emptiness, so an empty source text yields an empty-text record. -/
theorem created_records_from_source (fetch : Nat → Except GoErr String)
    (texts : Nat → String) (p1 p2 : Nat) (lang : String)
    (fetchRes : Except TransportErr String) (checkFault insertFault : Nat → Bool)
    (metaFault : Bool) (nowStr : String) (db : DBState)
    (hl : lang ≠ "de") (hf : ∀ i, fetch i = .ok (texts i)) :
    (∀ r ∈ (getFreshJoke fetch p1 p2 lang db).2.jokes,
        r ∈ db.jokes ∨ ∃ k, r.joke = texts k)
    ∧ (∀ body : String, fetchRes = .ok body →
        ∀ r ∈ (syncGermanJokes fetchRes checkFault insertFault metaFault nowStr db).2.jokes,
          r ∈ db.jokes ∨ r.joke ∈ extractJokesFromMarkdown body)
    ∧ ((∀ i, texts i ≠ "") →
        ∀ r ∈ (getFreshJoke fetch p1 p2 lang db).2.jokes,
          r ∉ db.jokes → r.joke ≠ "")
    ∧ (∀ body : String, fetchRes = .ok body →
        (∀ j ∈ extractJokesFromMarkdown body, j ≠ "") →
        ∀ r ∈ (syncGermanJokes fetchRes checkFault insertFault metaFault nowStr db).2.jokes,
          r ∉ db.jokes → r.joke ≠ "") := by
  have hA : ∀ r ∈ (getFreshJoke fetch p1 p2 lang db).2.jokes,
      r ∈ db.jokes ∨ ∃ k, r.joke = texts k := by
    intro r hr
    unfold getFreshJoke at hr
    rw [if_neg hl] at hr
    rcases freshLoop_new_records fetch texts lang hf 5 0 db r hr with h | ⟨k, hk⟩
    · exact .inl h
    · exact .inr ⟨k, by simpa using hk⟩
  have hB : ∀ body : String, fetchRes = .ok body →
      ∀ r ∈ (syncGermanJokes fetchRes checkFault insertFault metaFault nowStr db).2.jokes,
        r ∈ db.jokes ∨ r.joke ∈ extractJokesFromMarkdown body := by
    intro body hb r hr
    subst hb
    rw [syncGermanJokes_jokes] at hr
    exact insertExtracted_new checkFault insertFault
      (extractJokesFromMarkdown body) 0 db r hr
  refine ⟨hA, hB, ?_, ?_⟩
  · intro hne r hr hnotin
    rcases hA r hr with h | ⟨k, hk⟩
    · exact absurd h hnotin
    · rw [hk]
      exact hne k
  · intro body hb hne r hr hnotin
    rcases hB body hb r hr with h | h
    · exact absurd h hnotin
    · exact hne r.joke h

/-- Counterexample to C9 as stated: the document consisting of one bare
marker line extracts the entry `""`, which the sync inserts — the store then
holds a record whose text is empty. -/
theorem empty_text_record_ce :
    ((syncGermanJokes (.ok "- ") (fun _ => false) (fun _ => false) false "t"
        dbEmpty).2).jokes.map (fun r => r.joke) = [""] := by
  decide

/-- Witness for the amended C9: with every extracted entry of `"- A"`
non-empty, the single record the sync creates has non-empty text. -/
theorem created_records_from_source_witness :
    ({ id := 1, joke := "A", language := "de", shown := false } : JokeRec).joke
      ≠ "" := by
  have h := (created_records_from_source (fun _ => .ok "x") (fun _ => "x") 0 0 "en"
    (.ok "- A") (fun _ => false) (fun _ => false) false "t" dbEmpty
    (by decide) (fun _ => rfl)).2.2.2
  exact h "- A" rfl (by decide)
    { id := 1, joke := "A", language := "de", shown := false }
    (by decide) (by decide)

end Godad
